import Mathlib

/-!
Verification development for the medaCy cross-validation / evaluation core
(`medacy/model/model.py`) and the embedding lookup component
(`medacy/pipeline_components/embeddings/embedding_component.py`).

The Python code is shallowly embedded: the mutable loops of
`Model.cross_validate` become pure recursive functions over explicit state,
Python `None` becomes `Option`, raised exceptions become an error type
threaded through `Except`, and the float-valued sklearn metrics are
abstracted as rational-valued parameter functions (their values are opaque
to every property proved here).
-/

set_option linter.unusedVariables false

/-! ## Data model -/

/-- One token of the flattened test stream built at model.py:226-231 and
255-257: `groundtruth[i]`/`predictions[i]` (the label), `span_indices[i]`
and `document_indices[i]`.  The three parallel arrays (equal length by the
pipeline invariant, and as assumed by the indexing loop) are represented as
one list of per-token records. -/
structure Token where
  label : String
  span : Nat × Nat
  doc : String
deriving DecidableEq, Repr

/-- A reconstructed entity mention `(entity, first_start, last_end)` as
appended at model.py:246 and 272. -/
abbrev TaggedSpan := String × Nat × Nat

/-- One entry of `self.X_data`: a sequence as produced by the feature
extractor, `sequence[0]` the per-token feature dicts (contents external,
only the length is used by the flattening loop), `sequence[1]` the
per-token character spans, `sequence[2]` the source document id. -/
structure SeqX where
  feats : List Unit
  spans : List (Nat × Nat)
  doc : String
deriving DecidableEq, Repr

/-- One label sequence of `self.y_data` (one string label per token). -/
abbrev Labels := List String

/-- A data file of a `Dataset` together with the feature/label sequences the
external pipeline extracts from it (`Model._extract_features`). -/
structure DataFile where
  file_name : String
  xs : List SeqX
  ys : List Labels
deriving DecidableEq, Repr

/-- The `Dataset` object as seen by `cross_validate`: its `data_directory`
and its iterable of data files. -/
structure Dataset where
  data_directory : String
  files : List DataFile
deriving DecidableEq, Repr

/-- The mutable feature/label state of a `Model` (`self.X_data`,
`self.y_data`).  The fields are `Option`-valued so that the Python check
`self.X_data is not None` at model.py:180 can be stated faithfully;
`Model.__init__` sets both to (non-None) empty lists. -/
structure ModelState where
  X_data : Option (List SeqX)
  y_data : Option (List Labels)
deriving DecidableEq, Repr

/-- The state set by `Model.__init__`: `self.X_data = []`, `self.y_data = []`. -/
def initialState : ModelState := ⟨some [], some []⟩

/-- The concatenation of the per-file feature sequences, in file order
(`self.X_data += features` over the dataset, model.py:70-73). -/
def extractedX (ds : Dataset) : List SeqX := (ds.files.map (fun f => f.xs)).flatten

/-- The concatenation of the per-file label sequences, in file order. -/
def extractedY (ds : Dataset) : List Labels := (ds.files.map (fun f => f.ys)).flatten

/-- Model.preprocess (synchronous branch, model.py:66-73): reset both lists
and concatenate the per-file extraction results in file order. -/
def preprocess (ds : Dataset) (st : ModelState) : ModelState :=
  { X_data := some (extractedX ds)
    y_data := some (extractedY ds) }

/-! ## Span reconstruction (model.py:234-247 and 259-273)

The two identical while loops scan the flattened label stream with index
`i`.  The embedding is a left-to-right state machine whose register `cur`
holds the open run `(document, entity, first_start, last_end)` exactly when
the Python loop is between reading a non-"O" token and emitting its merged
span; `none` corresponds to the loop head with no run open. -/

/-- One emitted item: the document the span is appended under (the dict key
at model.py:246/272) together with the `TaggedSpan` tuple. -/
abbrev DocSpan := String × TaggedSpan

/-- The scan of the reconstruction loop.  With `cur = none` a token labeled
"O" is skipped (model.py:236-238) and any other token opens a run
(model.py:239-241).  With an open run `(d, e, s, en)`, a token whose label
equals `e` extends the run and updates the running end offset
(model.py:243-245, the inner while); any other token closes the run,
emitting `(e, s, en)` under document `d` (model.py:246), and is then itself
processed as a fresh loop iteration.  At the end of input an open run is
emitted (the inner while also stops at `i = len - 1`). -/
def reconstructGo (cur : Option (String × String × Nat × Nat)) :
    List Token → List DocSpan
  | [] =>
    match cur with
    | none => []
    | some (d, e, s, en) => [(d, (e, s, en))]
  | t :: rest =>
    match cur with
    | none =>
      if t.label == "O" then reconstructGo none rest
      else reconstructGo (some (t.doc, t.label, t.span.1, t.span.2)) rest
    | some (d, e, s, en) =>
      if t.label == e then reconstructGo (some (d, e, s, t.span.2)) rest
      else
        (d, (e, s, en)) ::
          (if t.label == "O" then reconstructGo none rest
           else reconstructGo (some (t.doc, t.label, t.span.1, t.span.2)) rest)

/-- The full reconstruction pass over a flattened token stream, emitting the
merged spans in scan order. -/
def reconstructSpans (ts : List Token) : List DocSpan :=
  reconstructGo none ts

/-- Modelled from the spec wording, for the refinement comparison of C1: the
stream decomposes into maximal runs of consecutive equal labels; an "O"
token emits nothing, and a maximal non-"O" run emits one span labelled with
the run label, starting at the first token's span start, ending at the last
token's span end, attributed to the first token's document. -/
def runSpec : List Token → List DocSpan
  | [] => []
  | t :: rest =>
    if t.label == "O" then runSpec rest
    else
      (t.doc, (t.label, t.span.1,
        ((rest.takeWhile (fun u => u.label == t.label)).getLastD t).span.2)) ::
        runSpec (rest.dropWhile (fun u => u.label == t.label))
termination_by l => l.length
decreasing_by
  · simp
  · have h2 := (List.dropWhile_sublist (l := rest)
      (fun u => u.label == t.label)).length_le
    simp only [List.length_cons]
    omega

/-! ## Tagset derivation (model.py:190-198)

The loop inserts every tag other than "O" and the empty string into a set,
converts it to a list and sorts it; the embedding deduplicates and sorts
the filtered stream, which yields the same (sorted, duplicate-free) list. -/

/-- The lexicographically sorted list of distinct labels occurring in the
label data, excluding "O" and "". -/
def computeTagset (Y : List Labels) : List String :=
  List.insertionSort (· ≤ ·) ((Y.flatten.filter
    (fun t => !(t == "O") && !(t == ""))).dedup)

/-- The label-restriction arguments of the sklearn metric invocations in one
fold (model.py:276-288): one singleton list per tagset label, then the full
tagset for the "system" row. -/
def foldMetricCalls (tagset : List String) : List (List String) :=
  tagset.map (fun l => [l]) ++ [tagset]

/-! ## Per-fold and aggregate statistics (model.py:276-315)

The sklearn metric functions are external; they are abstracted as opaque
rational-valued functions of the gold sequences, the predicted sequences
and the label restriction list. -/

/-- The three metric functions `metrics.flat_recall_score`,
`flat_precision_score`, `flat_f1_score` (weighted average), abstracted. -/
structure MetricFns where
  «recall» : List Labels → List Labels → List String → ℚ
  precision : List Labels → List Labels → List String → ℚ
  f1 : List Labels → List Labels → List String → ℚ

/-- One row of `fold_statistics` (model.py:277-281): the three scores for
one label restriction list. -/
structure LabelScores where
  «recall» : ℚ
  precision : ℚ
  f1 : ℚ
deriving DecidableEq, Repr

/-- The metric triple computed for a given label restriction list. -/
def metricRow (m : MetricFns) (y_test y_pred : List Labels)
    (labels : List String) : LabelScores :=
  { «recall» := m.«recall» y_test y_pred labels
    precision := m.precision y_test y_pred labels
    f1 := m.f1 y_test y_pred labels }

/-- One row of `statistics_all_folds` (model.py:306-315).  The source
computes no recall minimum; the field set mirrors the source exactly. -/
structure AggScores where
  precision_average : ℚ
  precision_max : ℚ
  precision_min : ℚ
  recall_average : ℚ
  recall_max : ℚ
  f1_average : ℚ
  f1_max : ℚ
  f1_min : ℚ
deriving DecidableEq, Repr

/-- Python statistics.mean of a list (exact rational mean). -/
def listMean (l : List ℚ) : ℚ := l.sum / l.length

/-- Python min over a nonempty iterable (the empty case, on which Python
raises, is given an arbitrary value and is guarded at every use site). -/
def listMin : List ℚ → ℚ
  | [] => 0
  | x :: xs => xs.foldl min x

/-- Python max over a nonempty iterable, as for `listMin`. -/
def listMax : List ℚ → ℚ
  | [] => 0
  | x :: xs => xs.foldl max x

/-- Dict access `fold_statistics[label]`; within `cross_validate` the label
is always a key of the per-fold dict, so the default is never read. -/
def lookupScores (fs : List (String × LabelScores)) (l : String) : LabelScores :=
  (fs.lookup l).getD ⟨0, 0, 0⟩

/-- One `statistics_all_folds[label]` entry (model.py:306-315). -/
def aggRow (evaluation : List (List (String × LabelScores))) (l : String) :
    AggScores :=
  { precision_average := listMean (evaluation.map (fun fs => (lookupScores fs l).precision))
    precision_max := listMax (evaluation.map (fun fs => (lookupScores fs l).precision))
    precision_min := listMin (evaluation.map (fun fs => (lookupScores fs l).precision))
    recall_average := listMean (evaluation.map (fun fs => (lookupScores fs l).«recall»))
    recall_max := listMax (evaluation.map (fun fs => (lookupScores fs l).«recall»))
    f1_average := listMean (evaluation.map (fun fs => (lookupScores fs l).f1))
    f1_max := listMax (evaluation.map (fun fs => (lookupScores fs l).f1))
    f1_min := listMin (evaluation.map (fun fs => (lookupScores fs l).f1)) }

/-- The possible raised exceptions of the embedded `cross_validate`. -/
inductive PyErr
  | foldCountValueError
  | predictionsValueError
  | groundtruthValueError
  | noneTypeError
  | assertionError
  | statisticsError
  | keyError
deriving DecidableEq, Repr

/-- The spec's error taxonomy (section 7) classes the fold count check and
the two missing-training-dataset checks as configuration errors. -/
def PyErr.isConfiguration : PyErr → Bool
  | .foldCountValueError => true
  | .predictionsValueError => true
  | .groundtruthValueError => true
  | _ => false

/-- The aggregation loop over `tagset + [system]` (model.py:303-315);
`statistics.mean` raises StatisticsError on an empty fold collection, which
happens exactly when no fold was processed. -/
def aggregateStats (tagset : List String)
    (evaluation : List (List (String × LabelScores))) :
    Except PyErr (List (String × AggScores)) :=
  if evaluation.isEmpty then .error .statisticsError
  else .ok ((tagset ++ ["system"]).map (fun l => (l, aggRow evaluation l)))

/-! ## Fold processing (model.py:206-301) -/

/-- The flattening at model.py:226-231/252-257: per-token document ids
(each sequence's doc repeated once per feature entry), per-token spans, and
the flattened label stream, zipped into token records.  The three arrays
have equal length by the pipeline invariant that features, spans and labels
are parallel. -/
def flattenTokens (xTest : List SeqX) (ys : List Labels) : List Token :=
  let document_indices := (xTest.map (fun s => s.feats.map (fun _ => s.doc))).flatten
  let span_indices := (xTest.map (fun s => s.spans)).flatten
  let labels := ys.flatten
  (labels.zip (span_indices.zip document_indices)).map
    (fun p => ⟨p.1, p.2.1, p.2.2⟩)

/-- Appending one reconstructed span under its document key
(model.py:246/272).  The key is always present: the accumulators are
initialised with every document id of `X_data` and the appended documents
come from test sequences of `X_data`. -/
def appendSpanned (acc : String → Option (List TaggedSpan)) (out : DocSpan) :
    String → Option (List TaggedSpan) :=
  fun d => if d = out.1 then (acc d).map (fun l => l ++ [out.2]) else acc d

/-- The state carried across the fold loop: the two per-document span
accumulators and `evaluation_statistics` (keyed here by position rather
than by the 1-based fold counter). -/
structure FoldAcc where
  gt : String → Option (List TaggedSpan)
  preds : String → Option (List TaggedSpan)
  evaluation : List (List (String × LabelScores))

/-- One iteration of the fold loop (model.py:206-301): select the train and
test sequences, train/predict (abstracted as `predict`), reconstruct spans
for the gold stream when `groundtruth_directory` is not None and for the
predicted stream when `prediction_directory` is not None, and record the
per-label and system metric rows. -/
def processFold (predict : List SeqX → List Labels → List SeqX → List Labels)
    (m : MetricFns) (tagset : List String) (X : List SeqX) (Y : List Labels)
    (gtOn predOn : Bool) (acc : FoldAcc) (fold : List Nat × List Nat) :
    FoldAcc :=
  let X_train := fold.1.map (fun i => X.getD i ⟨[], [], ""⟩)
  let y_train := fold.1.map (fun i => Y.getD i [])
  let X_test := fold.2.map (fun i => X.getD i ⟨[], [], ""⟩)
  let y_test := fold.2.map (fun i => Y.getD i [])
  let y_pred := predict X_train y_train X_test
  let gt2 := if gtOn then
      (reconstructSpans (flattenTokens X_test y_test)).foldl appendSpanned acc.gt
    else acc.gt
  let preds2 := if predOn then
      (reconstructSpans (flattenTokens X_test y_pred)).foldl appendSpanned acc.preds
    else acc.preds
  let fold_statistics :=
    tagset.map (fun l => (l, metricRow m y_test y_pred [l])) ++
      [("system", metricRow m y_test y_pred tagset)]
  { gt := gt2, preds := preds2, evaluation := acc.evaluation ++ [fold_statistics] }

/-! ## Annotation output (model.py:328-374) -/

/-- os.path.join as used here (second component relative and nonempty). -/
def pathJoin (a b : String) : String :=
  if a == "" then b else if a.endsWith "/" then a ++ b else a ++ "/" ++ b

/-- Python truthiness of the `prediction_directory` argument at
model.py:328: None and the empty string are falsy. -/
def pyTruthy : Option String → Bool
  | none => false
  | some s => !(s == "")

/-- Model.predict_annotation_evaluation (model.py:361-374): for each data
file of the training dataset, look up its span list under its file name
(a KeyError is raised for an absent key) and write it to
`directory/file_name.ann`.  The returned list records the written
(path, span list) pairs in file order. -/
def writeAnnFiles (dir : String) (byDoc : String → Option (List TaggedSpan)) :
    List DataFile → Except PyErr (List (String × List TaggedSpan))
  | [] => .ok []
  | f :: rest =>
    match byDoc f.file_name with
    | none => .error .keyError
    | some sp =>
      match writeAnnFiles dir byDoc rest with
      | .error e => .error e
      | .ok ws => .ok ((pathJoin dir (f.file_name ++ ".ann"), sp) :: ws)

/-- The observable outcome of a successful `cross_validate` call. -/
structure CVResult where
  tagset : List String
  aggregate : List (String × AggScores)
  writes : List (String × List TaggedSpan)
  returned : Option String

/-- The accumulator initialisation at model.py:203-204: both per-document
dicts get one empty-list entry per distinct document id of `X_data`. -/
def cvInitAcc (X : List SeqX) : FoldAcc :=
  let docKeys := (X.map (fun s => s.doc)).dedup
  { gt := fun d => if d ∈ docKeys then some [] else none
    preds := fun d => if d ∈ docKeys then some [] else none
    evaluation := [] }

/-- The fold loop (model.py:206-301) over the folds produced by the
splitter, starting from the freshly initialised accumulators. -/
def cvFolds (split : List SeqX → List Labels → List (List Nat × List Nat))
    (predict : List SeqX → List Labels → List SeqX → List Labels)
    (m : MetricFns) (gtOn predOn : Bool) (X : List SeqX) (Y : List Labels) :
    FoldAcc :=
  (split X Y).foldl
    (processFold predict m (computeTagset Y) X Y gtOn predOn) (cvInitAcc X)

/-- The annotation output block (model.py:328-348): guarded by the
truthiness of `prediction_directory`, both directory variables are rebound
to fixed sub-directories of the training dataset's data directory, the
groundtruth tree is written first and the predictions tree second, and a
Dataset over the predictions directory is returned (`returned` records its
directory). -/
def cvOutput (ds : Dataset) (prediction_directory : Option String)
    (acc : FoldAcc) (tagset : List String)
    (rows : List (String × AggScores)) : Except PyErr CVResult :=
  if pyTruthy prediction_directory then
    let predDir := pathJoin ds.data_directory "predictions"
    let gtDir := pathJoin ds.data_directory "groundtruth"
    match writeAnnFiles gtDir acc.gt ds.files with
    | .error e => .error e
    | .ok w1 =>
      match writeAnnFiles predDir acc.preds ds.files with
      | .error e => .error e
      | .ok w2 =>
        .ok { tagset := tagset, aggregate := rows,
              writes := w1 ++ w2, returned := some predDir }
  else
    .ok { tagset := tagset, aggregate := rows, writes := [], returned := none }

/-- Model.cross_validate (model.py:153-348).  External collaborators are
parameters: `split` is `SequenceStratifiedKFold(folds=num_folds)` applied
to the data, `predict` is the per-fold learner fit/predict pair, `m` the
sklearn metric family.  The returned pair is the model state after the
call together with the raised exception or the result. -/
def crossValidate (split : List SeqX → List Labels → List (List Nat × List Nat))
    (predict : List SeqX → List Labels → List SeqX → List Labels)
    (m : MetricFns) (num_folds : Int) (training_dataset : Option Dataset)
    (prediction_directory groundtruth_directory : Option String)
    (st : ModelState) : ModelState × Except PyErr CVResult :=
  if num_folds ≤ 1 then (st, .error .foldCountValueError)
  else if prediction_directory.isSome ∧ training_dataset.isNone then
    (st, .error .predictionsValueError)
  else if groundtruth_directory.isSome ∧ training_dataset.isNone then
    (st, .error .groundtruthValueError)
  else
    match training_dataset with
    | none => (st, .error .noneTypeError)
    | some ds =>
      let st2 := preprocess ds st
      if !(st2.X_data.isSome && st2.y_data.isSome) then
        (st2, .error .assertionError)
      else
        let X := st2.X_data.getD []
        let Y := st2.y_data.getD []
        let acc := cvFolds split predict m
          groundtruth_directory.isSome prediction_directory.isSome X Y
        match aggregateStats (computeTagset Y) acc.evaluation with
        | .error e => (st2, .error e)
        | .ok rows =>
          (st2, cvOutput ds prediction_directory acc (computeTagset Y) rows)

/-- The annotation file paths the output block writes when it runs: one
file per data file under the fixed groundtruth directory, then one per
data file under the fixed predictions directory. -/
def expectedAnnPaths (ds : Dataset) : List String :=
  ds.files.map (fun f =>
    pathJoin (pathJoin ds.data_directory "groundtruth") (f.file_name ++ ".ann")) ++
  ds.files.map (fun f =>
    pathJoin (pathJoin ds.data_directory "predictions") (f.file_name ++ ".ann"))

/-! ## EmbeddingComponent._lookup_embedding (embedding_component.py:21-30)

The gensim KeyedVectors object is a partial map from token text to a real
vector, embedded as an `Option`-valued lookup over rational vectors.  The
norm comparison `np.linalg.norm(v) == 0` holds exactly when the sum of
squares is zero, which is how the guard is embedded; the branch outcomes
are recorded symbolically since the normalised float vector itself is
external arithmetic. -/

/-- The squared euclidean norm of a vector. -/
def norm2 (v : List ℚ) : ℚ := (v.map (fun x => x * x)).sum

/-- The three return paths of `_lookup_embedding`: `keyError` is the
`except KeyError: return []` branch; `zeroNorm v` the `if norm == 0` branch
returning the unnormalised vector; `normalized v` the branch dividing `v`
by its norm. -/
inductive EmbeddingResult
  | keyError
  | zeroNorm (v : List ℚ)
  | normalized (v : List ℚ)
deriving DecidableEq, Repr

/-- EmbeddingComponent._lookup_embedding on a token text. -/
def lookupEmbedding (model : String → Option (List ℚ)) (tokenText : String) :
    EmbeddingResult :=
  match model tokenText with
  | none => .keyError
  | some v => if norm2 v = 0 then .zeroNorm v else .normalized v

/-! ## Concrete fixtures used by witnesses and counterexamples -/

/-- Metric functions returning 0 everywhere (their values are irrelevant to
every property below). -/
def zeroMetrics : MetricFns :=
  ⟨fun _ _ _ => 0, fun _ _ _ => 0, fun _ _ _ => 0⟩

/-- A dataset with one file contributing one single-token sequence. -/
def oneFileDS : Dataset :=
  ⟨"data", [⟨"doc1", [⟨[()], [(0, 1)], "doc1"⟩], [["Drug"]]⟩]⟩

/-- A dataset whose only file yields no feature/label sequences at all. -/
def emptyExtractionDS : Dataset := ⟨"data", [⟨"doc1", [], []⟩]⟩

/-- A splitter producing one fold whose test set is the whole (one-element)
collection. -/
def oneFoldSplit : List SeqX → List Labels → List (List Nat × List Nat) :=
  fun _ _ => [([], [0])]

/-- A splitter producing no folds (used with empty data). -/
def noFoldSplit : List SeqX → List Labels → List (List Nat × List Nat) :=
  fun _ _ => []

/-- A learner stub predicting "O" for every token. -/
def allOutsidePredict : List SeqX → List Labels → List SeqX → List Labels :=
  fun _ _ xt => xt.map (fun s => s.feats.map (fun _ => "O"))

/-! ## Helper lemmas on the reconstruction -/

theorem foldl_span_end (tw : List Token) (d : Token) :
    tw.foldl (fun _ u => u.span.2) d.span.2 = (tw.getLastD d).span.2 := by
  induction tw generalizing d with
  | nil => rfl
  | cons u tw ih =>
    rw [List.getLastD_cons]
    exact ih u

/-- The state-machine scan agrees, for every register value, with the
maximal-run description: an open run is closed at the end of the maximal
block of tokens continuing its label, and the scan then proceeds as a fresh
scan of the remainder. -/
theorem reconstructGo_run (ts : List Token) :
    (∀ d e s en, reconstructGo (some (d, e, s, en)) ts =
      (d, (e, s, (ts.takeWhile (fun u => u.label == e)).foldl
            (fun _ u => u.span.2) en)) ::
        runSpec (ts.dropWhile (fun u => u.label == e))) ∧
    reconstructGo none ts = runSpec ts := by
  induction ts with
  | nil =>
    constructor
    · intro d e s en
      simp [reconstructGo, runSpec]
    · simp [reconstructGo, runSpec]
  | cons t rest ih =>
    obtain ⟨ihSome, ihNone⟩ := ih
    have hNoneCons : reconstructGo none (t :: rest) = runSpec (t :: rest) := by
      by_cases hO : t.label == "O"
      · rw [reconstructGo, runSpec]
        simp only [hO, if_true]
        exact ihNone
      · rw [reconstructGo, runSpec]
        simp only [hO, Bool.false_eq_true, if_false]
        rw [ihSome t.doc t.label t.span.1 t.span.2]
        rw [foldl_span_end _ t]
    refine ⟨?_, hNoneCons⟩
    intro d e s en
    by_cases he : t.label == e
    · rw [reconstructGo]
      simp only [he, if_true]
      rw [ihSome d e s t.span.2]
      simp [List.takeWhile_cons, List.dropWhile_cons, he]
    · rw [reconstructGo]
      simp only [he, Bool.false_eq_true, if_false]
      rw [List.takeWhile_cons_of_neg (by simpa using he),
        List.dropWhile_cons_of_neg (by simpa using he)]
      simp only [List.foldl_nil]
      rw [← hNoneCons, reconstructGo]

/-- The reconstruction loop computes exactly the maximal-run semantics. -/
theorem reconstructSpans_eq_runSpec (ts : List Token) :
    reconstructSpans ts = runSpec ts :=
  (reconstructGo_run ts).2

theorem getLast?_cons_ne_nil {α : Type} (x : α) {l : List α} (h : l ≠ []) :
    (x :: l).getLast? = l.getLast? := by
  cases l with
  | nil => exact absurd rfl h
  | cons y l2 => exact List.getLast?_cons_cons

theorem dropWhile_getLast? {α : Type} (p : α → Bool) :
    ∀ l : List α, l.dropWhile p ≠ [] → (l.dropWhile p).getLast? = l.getLast?
  | [], h => absurd rfl h
  | a :: l, h => by
    by_cases hp : p a
    · rw [List.dropWhile_cons_of_pos hp] at h ⊢
      rw [dropWhile_getLast? p l h]
      have hl : l ≠ [] := by
        intro hnil
        rw [hnil] at h
        exact h rfl
      exact (getLast?_cons_ne_nil a hl).symm
    · rw [List.dropWhile_cons_of_neg hp]

theorem takeWhile_eq_self_of_dropWhile_nil {α : Type} (p : α → Bool)
    (l : List α) (h : l.dropWhile p = []) : l.takeWhile p = l := by
  have h2 := List.takeWhile_append_dropWhile p l
  rw [h, List.append_nil] at h2
  exact h2

theorem getLastD_of_getLast?_cons {α : Type} {u t : α} {rest : List α}
    (h : (u :: rest).getLast? = some t) : rest.getLastD u = t := by
  have h1 : (u :: rest).getLastD u = t := by
    rw [List.getLastD_eq_getLast?, h]
    rfl
  rwa [List.getLastD_cons] at h1

/-- A trailing open run is always closed: if the stream ends in a non-"O"
token then the last emitted span of the maximal-run semantics ends at that
token's end offset. -/
theorem runSpec_getLast : ∀ (ts : List Token) (t : Token),
    ts.getLast? = some t → (t.label == "O") = false →
    ∃ d e s, (runSpec ts).getLast? = some (d, (e, s, t.span.2))
  | [], t, hlast, _ => by simp at hlast
  | u :: rest, t, hlast, hO => by
    rw [runSpec]
    by_cases hu : u.label == "O"
    · rw [if_pos hu]
      cases rest with
      | nil =>
        have ht : u = t := by simpa using hlast
        rw [← ht] at hO
        rw [hu] at hO
        simp at hO
      | cons v rest2 =>
        have hlast2 : (v :: rest2).getLast? = some t := by
          rwa [List.getLast?_cons_cons] at hlast
        exact runSpec_getLast (v :: rest2) t hlast2 hO
    · rw [if_neg hu]
      rcases hdrop : rest.dropWhile (fun w => w.label == u.label) with _ | ⟨v, rest2⟩
      · rw [hdrop]
        have htake := takeWhile_eq_self_of_dropWhile_nil
          (fun w => w.label == u.label) rest hdrop
        rw [htake]
        have hlastD : rest.getLastD u = t := getLastD_of_getLast?_cons hlast
        rw [hlastD]
        refine ⟨u.doc, u.label, u.span.1, ?_⟩
        rw [show runSpec [] = [] from by rw [runSpec]]
        simp
      · rw [hdrop]
        have hne : rest.dropWhile (fun w => w.label == u.label) ≠ [] := by
          rw [hdrop]
          simp
        have hrne : rest ≠ [] := by
          intro hnil
          rw [hnil] at hdrop
          simp at hdrop
        have hlast3 : (v :: rest2).getLast? = some t := by
          rw [← hdrop, dropWhile_getLast? _ rest hne,
            ← getLast?_cons_ne_nil u hrne]
          exact hlast
        obtain ⟨d, e, s, hgl⟩ := runSpec_getLast (v :: rest2) t hlast3 hO
        refine ⟨d, e, s, ?_⟩
        have hrs_ne : runSpec (v :: rest2) ≠ [] := by
          intro hnil
          rw [hnil] at hgl
          simp at hgl
        rw [getLast?_cons_ne_nil _ hrs_ne]
        exact hgl
termination_by ts => ts.length
decreasing_by
  · rename_i heq
    subst heq
    simp only [List.length_cons]
    omega
  · have h2 := (List.dropWhile_sublist (l := rest)
      (fun w => w.label == u.label)).length_le
    rw [hdrop] at h2
    simp only [List.length_cons] at h2 ⊢
    omega

/-- Renaming the document ids of the stream renames the document
attribution of the output and changes nothing else: the scan never
branches on document identity. -/
theorem reconstructGo_relabel (f : String → String) (ts : List Token) :
    (∀ d e s en, reconstructGo (some (f d, e, s, en))
        (ts.map (fun u => ⟨u.label, u.span, f u.doc⟩)) =
      (reconstructGo (some (d, e, s, en)) ts).map (fun p => (f p.1, p.2))) ∧
    reconstructGo none (ts.map (fun u => ⟨u.label, u.span, f u.doc⟩)) =
      (reconstructGo none ts).map (fun p => (f p.1, p.2)) := by
  induction ts with
  | nil =>
    constructor
    · intro d e s en
      simp [reconstructGo]
    · simp [reconstructGo]
  | cons t rest ih =>
    obtain ⟨ihSome, ihNone⟩ := ih
    have hNone : reconstructGo none
        ((t :: rest).map (fun u => Token.mk u.label u.span (f u.doc))) =
        (reconstructGo none (t :: rest)).map (fun p => (f p.1, p.2)) := by
      rw [List.map_cons, reconstructGo, reconstructGo]
      by_cases hO : t.label == "O"
      · simp only [hO, if_true]
        exact ihNone
      · simp only [hO, Bool.false_eq_true, if_false]
        exact ihSome t.doc t.label t.span.1 t.span.2
    refine ⟨?_, hNone⟩
    intro d e s en
    rw [List.map_cons, reconstructGo, reconstructGo]
    by_cases he : t.label == e
    · simp only [he, if_true]
      exact ihSome d e s t.span.2
    · simp only [he, Bool.false_eq_true, if_false, List.map_cons]
      by_cases hO : t.label == "O"
      · simp only [hO, if_true]
        rw [ihNone]
      · simp only [hO, Bool.false_eq_true, if_false]
        rw [ihSome t.doc t.label t.span.1 t.span.2]

/-- C1: on every flattened equal-length stream, a token labeled "O" emits
nothing and every maximal run of consecutive tokens with one non-"O" label
emits exactly one span (label of the run, start of its first token, end of
its last token; distinct-label runs never merged) — stated as the
reconstruction loop computing exactly the maximal-run semantics `runSpec` —
and in particular labels ["O", "B-Drug", "B-Drug", "O"] with spans
[(0,1), (2,7), (8,13), (14,15)] on a single document yield exactly the one
span ("B-Drug", 2, 13). -/
theorem span_reconstruction_maximal_runs :
    (∀ ts : List Token, reconstructSpans ts = runSpec ts) ∧
    reconstructSpans
        [⟨"O", (0, 1), "doc1"⟩, ⟨"B-Drug", (2, 7), "doc1"⟩,
         ⟨"B-Drug", (8, 13), "doc1"⟩, ⟨"O", (14, 15), "doc1"⟩] =
      [("doc1", ("B-Drug", 2, 13))] :=
  ⟨reconstructSpans_eq_runSpec, by decide⟩

/-- C4: a label stream ending in a non-"O" token still emits a final span
for the trailing run, closing at the last token's span end; no open run is
dropped at the end of the input. -/
theorem span_reconstruction_trailing_run (ts : List Token) (t : Token)
    (hlast : ts.getLast? = some t) (hO : t.label ≠ "O") :
    ∃ d e s, (reconstructSpans ts).getLast? = some (d, (e, s, t.span.2)) := by
  rw [reconstructSpans_eq_runSpec]
  exact runSpec_getLast ts t hlast (by simpa using hO)

theorem span_reconstruction_trailing_run_witness :
    ∃ d e s, (reconstructSpans [⟨"Drug", (4, 9), "docA"⟩]).getLast? =
      some (d, (e, s, 9)) :=
  span_reconstruction_trailing_run [⟨"Drug", (4, 9), "docA"⟩]
    ⟨"Drug", (4, 9), "docA"⟩ rfl (by decide)

/-- C9: the merging loop compares label equality only and never document
identity: document renaming commutes with reconstruction, and on a stream
whose two adjacent same-label tokens belong to different documents a single
span is emitted, attributed to the first document while its end offset
comes from the second document's token. -/
theorem span_reconstruction_crosses_documents :
    (∀ (f : String → String) (ts : List Token),
      reconstructSpans (ts.map (fun u => ⟨u.label, u.span, f u.doc⟩)) =
        (reconstructSpans ts).map (fun p => (f p.1, p.2))) ∧
    reconstructSpans [⟨"Drug", (0, 5), "docA"⟩, ⟨"Drug", (7, 12), "docB"⟩] =
      [("docA", ("Drug", 0, 12))] ∧ "docA" ≠ "docB" :=
  ⟨fun f ts => (reconstructGo_relabel f ts).2, by decide, by decide⟩

theorem norm2_nonneg (v : List ℚ) : 0 ≤ norm2 v := by
  refine List.sum_nonneg ?_
  intro x hx
  obtain ⟨y, hy, rfl⟩ := List.mem_map.mp hx
  exact mul_self_nonneg y

theorem norm2_eq_zero_iff (v : List ℚ) : norm2 v = 0 ↔ ∀ x ∈ v, x = 0 := by
  induction v with
  | nil => simp [norm2]
  | cons x v ih =>
    have hx : (0 : ℚ) ≤ x * x := mul_self_nonneg x
    have hv : 0 ≤ norm2 v := norm2_nonneg v
    have hcons : norm2 (x :: v) = x * x + norm2 v := by
      simp [norm2]
    rw [hcons]
    constructor
    · intro h
      have hx0 : x * x = 0 := by linarith [(add_eq_zero_iff_of_nonneg hx hv).mp h]
      have hv0 : norm2 v = 0 := ((add_eq_zero_iff_of_nonneg hx hv).mp h).2
      intro y hy
      rcases List.mem_cons.mp hy with rfl | hy2
      · exact mul_self_eq_zero.mp hx0
      · exact (ih.mp hv0) y hy2
    · intro h
      have hx0 : x = 0 := h x (List.mem_cons_self x v)
      have hv0 : norm2 v = 0 := ih.mpr (fun y hy => h y (List.mem_cons_of_mem x hy))
      rw [hx0, hv0]
      ring

/-- C10: the embedding lookup is total: an absent token takes the KeyError
branch (which returns the empty list), a present vector with zero norm
takes the guarded branch returning the unnormalised vector, and the
division branch is taken only for a nonzero norm, so division by zero is
unreachable; the zero-norm guard holds exactly for the all-zero vector. -/
theorem embedding_lookup_total_and_guarded
    (model : String → Option (List ℚ)) (tokenText : String) :
    (lookupEmbedding model tokenText = .keyError ↔ model tokenText = none) ∧
    (∀ v, model tokenText = some v → norm2 v = 0 →
      lookupEmbedding model tokenText = .zeroNorm v) ∧
    (∀ v, lookupEmbedding model tokenText = .normalized v → norm2 v ≠ 0) ∧
    (∀ v, norm2 v = 0 ↔ ∀ x ∈ v, x = 0) := by
  cases hmv : model tokenText with
  | none =>
    refine ⟨by simp [lookupEmbedding, hmv], ?_, ?_, norm2_eq_zero_iff⟩
    · intro v hv
      simp at hv
    · intro v h
      simp [lookupEmbedding, hmv] at h
  | some v0 =>
    by_cases h0 : norm2 v0 = 0
    · refine ⟨by simp [lookupEmbedding, hmv, h0], ?_, ?_, norm2_eq_zero_iff⟩
      · intro v hv hz
        injection hv with hv
        subst hv
        simp [lookupEmbedding, hmv, h0]
      · intro v h
        simp [lookupEmbedding, hmv, h0] at h
    · refine ⟨by simp [lookupEmbedding, hmv, h0], ?_, ?_, norm2_eq_zero_iff⟩
      · intro v hv hz
        injection hv with hv
        subst hv
        exact absurd hz h0
      · intro v h
        simp only [lookupEmbedding, hmv, h0, if_false] at h
        injection h with h
        subst h
        exact h0

theorem embedding_lookup_witness :
    lookupEmbedding (fun s => if s = "the" then some [0, 0] else none) "the" =
      .zeroNorm [0, 0] :=
  (embedding_lookup_total_and_guarded
      (fun s => if s = "the" then some [0, 0] else none) "the").2.1
    [0, 0] (by simp) (by norm_num [norm2])

/-- C2: calling cross_validate with a prediction or groundtruth directory
but no training dataset raises a configuration error before any
preprocessing or fold processing, leaving the model state unchanged. -/
theorem cross_validate_requires_training_dataset
    (split : List SeqX → List Labels → List (List Nat × List Nat))
    (predict : List SeqX → List Labels → List SeqX → List Labels)
    (m : MetricFns) (num_folds : Int) (pd gd : Option String)
    (st : ModelState) (hreq : pd.isSome ∨ gd.isSome) :
    ∃ e, crossValidate split predict m num_folds none pd gd st =
        (st, .error e) ∧ e.isConfiguration = true := by
  rw [crossValidate]
  by_cases hf : num_folds ≤ 1
  · rw [if_pos hf]
    exact ⟨.foldCountValueError, rfl, rfl⟩
  · rw [if_neg hf]
    by_cases hp : pd.isSome = true
    · rw [if_pos ⟨hp, rfl⟩]
      exact ⟨.predictionsValueError, rfl, rfl⟩
    · have hg : gd.isSome = true := by
        rcases hreq with h | h
        · exact absurd h hp
        · exact h
      rw [if_neg (by simp [hp])]
      rw [if_pos ⟨hg, rfl⟩]
      exact ⟨.groundtruthValueError, rfl, rfl⟩

theorem cross_validate_requires_training_dataset_witness :
    ∃ e, crossValidate oneFoldSplit allOutsidePredict zeroMetrics 5 none
        (some "out") none initialState = (initialState, .error e) ∧
      e.isConfiguration = true :=
  cross_validate_requires_training_dataset oneFoldSplit allOutsidePredict
    zeroMetrics 5 (some "out") none initialState (Or.inl rfl)

/-- C5: the tagset is derived once, upfront, as the lexicographically
sorted duplicate-free list of exactly the labels occurring in the
extracted label data other than "O" and the empty string, and every metric
invocation of the fold loop (each per-label call and the "system" call) is
restricted to labels of this tagset. -/
theorem cross_validate_tagset (Y : List Labels) :
    (computeTagset Y).Sorted (· ≤ ·) ∧
    (computeTagset Y).Nodup ∧
    (∀ l, l ∈ computeTagset Y ↔ l ∈ Y.flatten ∧ l ≠ "O" ∧ l ≠ "") ∧
    (∀ L ∈ foldMetricCalls (computeTagset Y), ∀ l ∈ L, l ∈ computeTagset Y) := by
  refine ⟨List.sorted_insertionSort _ _, ?_, ?_, ?_⟩
  · exact (List.perm_insertionSort _ _).symm.nodup (List.nodup_dedup _)
  · intro l
    rw [computeTagset, (List.perm_insertionSort _ _).mem_iff, List.mem_dedup,
      List.mem_filter]
    simp
  · intro L hL l hl
    rcases List.mem_append.mp hL with h | h
    · obtain ⟨tag, htag, rfl⟩ := List.mem_map.mp h
      rcases List.mem_singleton.mp hl with rfl
      exact htag
    · rcases List.mem_singleton.mp h with rfl
      exact hl

theorem cross_validate_tagset_witness :
    "B-Drug" ∈ computeTagset [["B-Drug", "O", ""]] :=
  ((cross_validate_tagset [["B-Drug", "O", ""]]).2.2.1 "B-Drug").mpr
    ⟨by decide, by decide, by decide⟩

theorem foldl_min_le_init (xs : List ℚ) (x : ℚ) : xs.foldl min x ≤ x := by
  induction xs generalizing x with
  | nil => exact le_rfl
  | cons a xs ih => exact (ih (min x a)).trans (min_le_left x a)

theorem foldl_min_le_mem (xs : List ℚ) (x y : ℚ) (hy : y ∈ xs) :
    xs.foldl min x ≤ y := by
  induction xs generalizing x with
  | nil => cases hy
  | cons a xs ih =>
    rcases List.mem_cons.mp hy with rfl | hy2
    · exact (foldl_min_le_init xs (min x y)).trans (min_le_right x y)
    · exact ih (min x a) hy2

theorem le_foldl_max_init (xs : List ℚ) (x : ℚ) : x ≤ xs.foldl max x := by
  induction xs generalizing x with
  | nil => exact le_rfl
  | cons a xs ih => exact (le_max_left x a).trans (ih (max x a))

theorem le_foldl_max_mem (xs : List ℚ) (x y : ℚ) (hy : y ∈ xs) :
    y ≤ xs.foldl max x := by
  induction xs generalizing x with
  | nil => cases hy
  | cons a xs ih =>
    rcases List.mem_cons.mp hy with rfl | hy2
    · exact (le_max_right x y).trans (le_foldl_max_init xs (max x y))
    · exact ih (max x a) hy2

theorem listMin_le_mem (l : List ℚ) (y : ℚ) (hy : y ∈ l) : listMin l ≤ y := by
  cases l with
  | nil => cases hy
  | cons x xs =>
    rcases List.mem_cons.mp hy with rfl | hy2
    · exact foldl_min_le_init xs y
    · exact foldl_min_le_mem xs x y hy2

theorem mem_le_listMax (l : List ℚ) (y : ℚ) (hy : y ∈ l) : y ≤ listMax l := by
  cases l with
  | nil => cases hy
  | cons x xs =>
    rcases List.mem_cons.mp hy with rfl | hy2
    · exact le_foldl_max_init xs y
    · exact le_foldl_max_mem xs x y hy2

theorem mul_length_le_sum (l : List ℚ) (a : ℚ) (h : ∀ y ∈ l, a ≤ y) :
    a * l.length ≤ l.sum := by
  induction l with
  | nil => simp
  | cons x l ih =>
    have h1 : a * l.length ≤ l.sum := ih (fun y hy => h y (List.mem_cons_of_mem x hy))
    have h2 : a ≤ x := h x (List.mem_cons_self x l)
    rw [List.sum_cons, List.length_cons]
    push_cast
    nlinarith

theorem sum_le_mul_length (l : List ℚ) (a : ℚ) (h : ∀ y ∈ l, y ≤ a) :
    l.sum ≤ a * l.length := by
  induction l with
  | nil => simp
  | cons x l ih =>
    have h1 : l.sum ≤ a * l.length := ih (fun y hy => h y (List.mem_cons_of_mem x hy))
    have h2 : x ≤ a := h x (List.mem_cons_self x l)
    rw [List.sum_cons, List.length_cons]
    push_cast
    nlinarith

theorem listMin_le_listMean (l : List ℚ) (h : l ≠ []) :
    listMin l ≤ listMean l := by
  have hlen : 0 < (l.length : ℚ) := by
    have := List.length_pos.mpr h
    exact_mod_cast this
  rw [listMean, le_div_iff₀ hlen]
  exact mul_length_le_sum l (listMin l) (fun y hy => listMin_le_mem l y hy)

theorem listMean_le_listMax (l : List ℚ) (h : l ≠ []) :
    listMean l ≤ listMax l := by
  have hlen : 0 < (l.length : ℚ) := by
    have := List.length_pos.mpr h
    exact_mod_cast this
  rw [listMean, div_le_iff₀ hlen]
  exact sum_le_mul_length l (listMax l) (fun y hy => mem_le_listMax l y hy)

/-- C6: after all folds, the aggregation succeeds and for every row — one
per label of tagset plus the synthetic "system" label — the f1 minimum is
at most the f1 arithmetic mean which is at most the f1 maximum, and the
same bounds hold for precision. -/
theorem aggregate_f1_precision_bounds (tagset : List String)
    (evaluation : List (List (String × LabelScores)))
    (hne : evaluation ≠ []) :
    ∃ rows, aggregateStats tagset evaluation = .ok rows ∧
      ∀ row ∈ rows,
        row.2.f1_min ≤ row.2.f1_average ∧ row.2.f1_average ≤ row.2.f1_max ∧
        row.2.precision_min ≤ row.2.precision_average ∧
        row.2.precision_average ≤ row.2.precision_max := by
  refine ⟨(tagset ++ ["system"]).map (fun l => (l, aggRow evaluation l)), ?_, ?_⟩
  · rw [aggregateStats, if_neg (by simpa using hne)]
  · intro row hrow
    obtain ⟨l, hl, rfl⟩ := List.mem_map.mp hrow
    have hf1 : evaluation.map (fun fs => (lookupScores fs l).f1) ≠ [] := by
      simpa using hne
    have hpr : evaluation.map (fun fs => (lookupScores fs l).precision) ≠ [] := by
      simpa using hne
    exact ⟨listMin_le_listMean _ hf1, listMean_le_listMax _ hf1,
      listMin_le_listMean _ hpr, listMean_le_listMax _ hpr⟩

theorem aggregate_f1_precision_bounds_witness :
    ∃ rows, aggregateStats ["Drug"] [[("Drug", ⟨0, 0, 0⟩)]] = .ok rows ∧
      ∀ row ∈ rows,
        row.2.f1_min ≤ row.2.f1_average ∧ row.2.f1_average ≤ row.2.f1_max ∧
        row.2.precision_min ≤ row.2.precision_average ∧
        row.2.precision_average ≤ row.2.precision_max :=
  aggregate_f1_precision_bounds ["Drug"] [[("Drug", ⟨0, 0, 0⟩)]] (by simp)

/-- C3 (evidence): with a training dataset whose extraction yields no
sequences, the assertion at model.py:180 — which tests only that the data
is not None, and preprocess always assigns lists — is satisfied, so
cross_validate does not abort before fold splitting: it proceeds through
the splitter (here yielding no folds over the empty collection) and only
fails later, inside the post-fold aggregation, when statistics.mean is
applied to an empty fold collection. -/
theorem cross_validate_empty_extraction_reaches_folds :
    crossValidate noFoldSplit allOutsidePredict zeroMetrics 5
        (some emptyExtractionDS) none none initialState =
      (preprocess emptyExtractionDS initialState, .error .statisticsError) ∧
    ((preprocess emptyExtractionDS initialState).X_data.isSome &&
      (preprocess emptyExtractionDS initialState).y_data.isSome) = true ∧
    (preprocess emptyExtractionDS initialState).X_data = some [] :=
  ⟨rfl, rfl, rfl⟩

theorem appendSpanned_isSome (acc : String → Option (List TaggedSpan))
    (out : DocSpan) (d : String) :
    ((appendSpanned acc out) d).isSome = (acc d).isSome := by
  by_cases h : d = out.1
  · simp [appendSpanned, h]
  · simp [appendSpanned, h]

theorem foldl_appendSpanned_isSome :
    ∀ (outs : List DocSpan) (acc : String → Option (List TaggedSpan)) (d : String),
    ((outs.foldl appendSpanned acc) d).isSome = (acc d).isSome
  | [], acc, d => rfl
  | o :: outs, acc, d => by
    rw [List.foldl_cons,
      foldl_appendSpanned_isSome outs (appendSpanned acc o) d,
      appendSpanned_isSome]

theorem processFold_gt_isSome (predict : List SeqX → List Labels → List SeqX → List Labels)
    (m : MetricFns) (tagset : List String) (X : List SeqX) (Y : List Labels)
    (gtOn predOn : Bool) (acc : FoldAcc) (fold : List Nat × List Nat) (d : String) :
    ((processFold predict m tagset X Y gtOn predOn acc fold).gt d).isSome =
      (acc.gt d).isSome := by
  cases gtOn with
  | false => simp [processFold]
  | true => simp [processFold, foldl_appendSpanned_isSome]

theorem processFold_preds_isSome (predict : List SeqX → List Labels → List SeqX → List Labels)
    (m : MetricFns) (tagset : List String) (X : List SeqX) (Y : List Labels)
    (gtOn predOn : Bool) (acc : FoldAcc) (fold : List Nat × List Nat) (d : String) :
    ((processFold predict m tagset X Y gtOn predOn acc fold).preds d).isSome =
      (acc.preds d).isSome := by
  cases predOn with
  | false => simp [processFold]
  | true => simp [processFold, foldl_appendSpanned_isSome]

theorem processFold_evaluation_length
    (predict : List SeqX → List Labels → List SeqX → List Labels)
    (m : MetricFns) (tagset : List String) (X : List SeqX) (Y : List Labels)
    (gtOn predOn : Bool) (acc : FoldAcc) (fold : List Nat × List Nat) :
    (processFold predict m tagset X Y gtOn predOn acc fold).evaluation.length =
      acc.evaluation.length + 1 := by
  simp [processFold]

theorem foldl_processFold_gt_isSome
    (predict : List SeqX → List Labels → List SeqX → List Labels)
    (m : MetricFns) (tagset : List String) (X : List SeqX) (Y : List Labels)
    (gtOn predOn : Bool) :
    ∀ (folds : List (List Nat × List Nat)) (acc : FoldAcc) (d : String),
    ((folds.foldl (processFold predict m tagset X Y gtOn predOn) acc).gt d).isSome
      = (acc.gt d).isSome
  | [], acc, d => rfl
  | f :: folds, acc, d => by
    rw [List.foldl_cons,
      foldl_processFold_gt_isSome predict m tagset X Y gtOn predOn folds _ d,
      processFold_gt_isSome]

theorem foldl_processFold_preds_isSome
    (predict : List SeqX → List Labels → List SeqX → List Labels)
    (m : MetricFns) (tagset : List String) (X : List SeqX) (Y : List Labels)
    (gtOn predOn : Bool) :
    ∀ (folds : List (List Nat × List Nat)) (acc : FoldAcc) (d : String),
    ((folds.foldl (processFold predict m tagset X Y gtOn predOn) acc).preds d).isSome
      = (acc.preds d).isSome
  | [], acc, d => rfl
  | f :: folds, acc, d => by
    rw [List.foldl_cons,
      foldl_processFold_preds_isSome predict m tagset X Y gtOn predOn folds _ d,
      processFold_preds_isSome]

theorem foldl_processFold_evaluation_length
    (predict : List SeqX → List Labels → List SeqX → List Labels)
    (m : MetricFns) (tagset : List String) (X : List SeqX) (Y : List Labels)
    (gtOn predOn : Bool) :
    ∀ (folds : List (List Nat × List Nat)) (acc : FoldAcc),
    (folds.foldl (processFold predict m tagset X Y gtOn predOn) acc).evaluation.length
      = acc.evaluation.length + folds.length
  | [], acc => by simp
  | f :: folds, acc => by
    rw [List.foldl_cons,
      foldl_processFold_evaluation_length predict m tagset X Y gtOn predOn folds _,
      processFold_evaluation_length]
    simp only [List.length_cons]
    omega

theorem cvInitAcc_gt_isSome (X : List SeqX) (d : String)
    (h : d ∈ X.map (fun s => s.doc)) : ((cvInitAcc X).gt d).isSome = true := by
  have h2 : d ∈ (X.map (fun s => s.doc)).dedup := List.mem_dedup.mpr h
  simp only [cvInitAcc]
  rw [if_pos h2]
  rfl

theorem cvInitAcc_preds_isSome (X : List SeqX) (d : String)
    (h : d ∈ X.map (fun s => s.doc)) : ((cvInitAcc X).preds d).isSome = true := by
  have h2 : d ∈ (X.map (fun s => s.doc)).dedup := List.mem_dedup.mpr h
  simp only [cvInitAcc]
  rw [if_pos h2]
  rfl

theorem cvFolds_gt_isSome
    (split : List SeqX → List Labels → List (List Nat × List Nat))
    (predict : List SeqX → List Labels → List SeqX → List Labels)
    (m : MetricFns) (gtOn predOn : Bool) (X : List SeqX) (Y : List Labels)
    (d : String) (h : d ∈ X.map (fun s => s.doc)) :
    ((cvFolds split predict m gtOn predOn X Y).gt d).isSome = true := by
  rw [cvFolds, foldl_processFold_gt_isSome]
  exact cvInitAcc_gt_isSome X d h

theorem cvFolds_preds_isSome
    (split : List SeqX → List Labels → List (List Nat × List Nat))
    (predict : List SeqX → List Labels → List SeqX → List Labels)
    (m : MetricFns) (gtOn predOn : Bool) (X : List SeqX) (Y : List Labels)
    (d : String) (h : d ∈ X.map (fun s => s.doc)) :
    ((cvFolds split predict m gtOn predOn X Y).preds d).isSome = true := by
  rw [cvFolds, foldl_processFold_preds_isSome]
  exact cvInitAcc_preds_isSome X d h

theorem cvFolds_evaluation_length
    (split : List SeqX → List Labels → List (List Nat × List Nat))
    (predict : List SeqX → List Labels → List SeqX → List Labels)
    (m : MetricFns) (gtOn predOn : Bool) (X : List SeqX) (Y : List Labels) :
    (cvFolds split predict m gtOn predOn X Y).evaluation.length =
      (split X Y).length := by
  rw [cvFolds, foldl_processFold_evaluation_length]
  simp [cvInitAcc]

theorem writeAnnFiles_ok (dir : String)
    (byDoc : String → Option (List TaggedSpan)) :
    ∀ files : List DataFile, (∀ f ∈ files, (byDoc f.file_name).isSome = true) →
    ∃ ws, writeAnnFiles dir byDoc files = .ok ws ∧
      ws.map Prod.fst = files.map (fun f => pathJoin dir (f.file_name ++ ".ann"))
  | [], _ => ⟨[], rfl, rfl⟩
  | f :: rest, h => by
    obtain ⟨sp, hsp⟩ := Option.isSome_iff_exists.mp (h f (List.mem_cons_self f rest))
    obtain ⟨ws, hws, hwsp⟩ := writeAnnFiles_ok dir byDoc rest
      (fun g hg => h g (List.mem_cons_of_mem f hg))
    refine ⟨(pathJoin dir (f.file_name ++ ".ann"), sp) :: ws, ?_, ?_⟩
    · rw [writeAnnFiles, hsp, hws]
    · simp [hwsp]

theorem cvOutput_writes (ds : Dataset) (pd : Option String) (acc : FoldAcc)
    (tagset : List String) (rows : List (String × AggScores))
    (hgt : ∀ f ∈ ds.files, (acc.gt f.file_name).isSome = true)
    (hpreds : ∀ f ∈ ds.files, (acc.preds f.file_name).isSome = true) :
    ∃ r, cvOutput ds pd acc tagset rows = .ok r ∧
      r.writes.map Prod.fst =
        (if pyTruthy pd = true then expectedAnnPaths ds else []) ∧
      r.returned =
        (if pyTruthy pd = true then
          some (pathJoin ds.data_directory "predictions") else none) := by
  by_cases hp : pyTruthy pd = true
  · obtain ⟨w1, hw1, hw1p⟩ := writeAnnFiles_ok
      (pathJoin ds.data_directory "groundtruth") acc.gt ds.files hgt
    obtain ⟨w2, hw2, hw2p⟩ := writeAnnFiles_ok
      (pathJoin ds.data_directory "predictions") acc.preds ds.files hpreds
    refine ⟨⟨tagset, rows, w1 ++ w2,
      some (pathJoin ds.data_directory "predictions")⟩, ?_, ?_, ?_⟩
    · simp only [cvOutput, hp, if_true]
      rw [hw1, hw2]
    · simp only [hp, if_true, expectedAnnPaths]
      simp [hw1p, hw2p]
    · simp [hp]
  · refine ⟨⟨tagset, rows, [], none⟩, ?_, by simp [hp], by simp [hp]⟩
    rw [cvOutput, if_neg hp]

theorem crossValidate_some
    (split : List SeqX → List Labels → List (List Nat × List Nat))
    (predict : List SeqX → List Labels → List SeqX → List Labels)
    (m : MetricFns) (num_folds : Int) (ds : Dataset) (pd gd : Option String)
    (st : ModelState) (hnf : ¬ num_folds ≤ 1) :
    crossValidate split predict m num_folds (some ds) pd gd st =
      (preprocess ds st,
        match aggregateStats (computeTagset (extractedY ds))
            (cvFolds split predict m gd.isSome pd.isSome
              (extractedX ds) (extractedY ds)).evaluation with
        | .error e => .error e
        | .ok rows =>
          cvOutput ds pd
            (cvFolds split predict m gd.isSome pd.isSome
              (extractedX ds) (extractedY ds))
            (computeTagset (extractedY ds)) rows) := by
  rw [crossValidate, if_neg hnf, if_neg (by simp), if_neg (by simp)]
  simp only [preprocess, Option.getD_some, Option.isSome_some, Bool.and_self,
    Bool.not_true, Bool.false_eq_true, if_false]
  cases aggregateStats (computeTagset (extractedY ds))
      (cvFolds split predict m gd.isSome pd.isSome
        (extractedX ds) (extractedY ds)).evaluation with
  | error e => rfl
  | ok rows => rfl

/-- The shape of every completed run with a training dataset: the state is
the preprocessed state, and the written annotation paths and the returned
directory are exactly the fixed ones when `prediction_directory` is truthy
and absent otherwise. -/
theorem crossValidate_write_paths
    (split : List SeqX → List Labels → List (List Nat × List Nat))
    (predict : List SeqX → List Labels → List SeqX → List Labels)
    (m : MetricFns) (num_folds : Int) (ds : Dataset) (pd gd : Option String)
    (st : ModelState) (hnf : ¬ num_folds ≤ 1)
    (hfolds : split (extractedX ds) (extractedY ds) ≠ [])
    (hdocs : ∀ f ∈ ds.files, f.file_name ∈ (extractedX ds).map (fun s => s.doc)) :
    ∃ r, crossValidate split predict m num_folds (some ds) pd gd st =
        (preprocess ds st, .ok r) ∧
      r.writes.map Prod.fst =
        (if pyTruthy pd = true then expectedAnnPaths ds else []) ∧
      r.returned =
        (if pyTruthy pd = true then
          some (pathJoin ds.data_directory "predictions") else none) := by
  have hlen := cvFolds_evaluation_length split predict m gd.isSome pd.isSome
    (extractedX ds) (extractedY ds)
  have hne : (cvFolds split predict m gd.isSome pd.isSome
      (extractedX ds) (extractedY ds)).evaluation ≠ [] := by
    intro hnil
    rw [hnil] at hlen
    exact hfolds (List.length_eq_zero.mp hlen.symm)
  have hagg : aggregateStats (computeTagset (extractedY ds))
      (cvFolds split predict m gd.isSome pd.isSome
        (extractedX ds) (extractedY ds)).evaluation =
      .ok ((computeTagset (extractedY ds) ++ ["system"]).map
        (fun l => (l, aggRow (cvFolds split predict m gd.isSome pd.isSome
          (extractedX ds) (extractedY ds)).evaluation l))) := by
    rw [aggregateStats, if_neg (by simpa using hne)]
  have hgt : ∀ f ∈ ds.files,
      ((cvFolds split predict m gd.isSome pd.isSome
        (extractedX ds) (extractedY ds)).gt f.file_name).isSome = true :=
    fun f hf => cvFolds_gt_isSome split predict m gd.isSome pd.isSome
      (extractedX ds) (extractedY ds) f.file_name (hdocs f hf)
  have hpreds : ∀ f ∈ ds.files,
      ((cvFolds split predict m gd.isSome pd.isSome
        (extractedX ds) (extractedY ds)).preds f.file_name).isSome = true :=
    fun f hf => cvFolds_preds_isSome split predict m gd.isSome pd.isSome
      (extractedX ds) (extractedY ds) f.file_name (hdocs f hf)
  obtain ⟨r, hout, hw, hr⟩ := cvOutput_writes ds pd
    (cvFolds split predict m gd.isSome pd.isSome (extractedX ds) (extractedY ds))
    (computeTagset (extractedY ds))
    ((computeTagset (extractedY ds) ++ ["system"]).map
      (fun l => (l, aggRow (cvFolds split predict m gd.isSome pd.isSome
        (extractedX ds) (extractedY ds)).evaluation l)))
    hgt hpreds
  refine ⟨r, ?_, hw, hr⟩
  rw [crossValidate_some split predict m num_folds ds pd gd st hnf, hagg]
  exact congrArg (Prod.mk (preprocess ds st)) hout

/-- C7 (counterexample): cross-validation with only groundtruth_directory
requested (prediction_directory None) and a training dataset completes
with no annotation writes at all and returns no dataset: requesting
groundtruth_directory does not suffice for any tree to be written. -/
theorem groundtruth_only_writes_nothing :
    (crossValidate oneFoldSplit allOutsidePredict zeroMetrics 5
        (some oneFileDS) none (some "/user/groundtruth") initialState).2.map
      (fun r => (r.writes, r.returned)) = Except.ok ([], none) := rfl

/-- C7 (amended): annotation output is produced exactly when
prediction_directory is truthy: then both the groundtruth tree and the
predictions tree are written, one file_name.ann file per data file of the
dataset, while a falsy prediction_directory (None or the empty string)
produces no annotation output at all, even when groundtruth_directory is
set. -/
theorem cross_validate_writes_both_trees
    (split : List SeqX → List Labels → List (List Nat × List Nat))
    (predict : List SeqX → List Labels → List SeqX → List Labels)
    (m : MetricFns) (num_folds : Int) (ds : Dataset) (gd : Option String)
    (st : ModelState) (hnf : ¬ num_folds ≤ 1)
    (hfolds : split (extractedX ds) (extractedY ds) ≠ [])
    (hdocs : ∀ f ∈ ds.files, f.file_name ∈ (extractedX ds).map (fun s => s.doc)) :
    (∀ p : String, p ≠ "" →
      ∃ r, crossValidate split predict m num_folds (some ds) (some p) gd st =
          (preprocess ds st, .ok r) ∧
        r.writes.map Prod.fst = expectedAnnPaths ds ∧
        r.returned = some (pathJoin ds.data_directory "predictions")) ∧
    (∀ pd : Option String, pyTruthy pd = false →
      ∃ r, crossValidate split predict m num_folds (some ds) pd gd st =
          (preprocess ds st, .ok r) ∧
        r.writes = [] ∧ r.returned = none) := by
  constructor
  · intro p hp
    have hpt : pyTruthy (some p) = true := by
      simp [pyTruthy, hp]
    obtain ⟨r, h1, h2, h3⟩ := crossValidate_write_paths split predict m
      num_folds ds (some p) gd st hnf hfolds hdocs
    exact ⟨r, h1, by rwa [if_pos hpt] at h2, by rwa [if_pos hpt] at h3⟩
  · intro pd hp
    obtain ⟨r, h1, h2, h3⟩ := crossValidate_write_paths split predict m
      num_folds ds pd gd st hnf hfolds hdocs
    have hcond : ¬ pyTruthy pd = true := by
      simp [hp]
    rw [if_neg hcond] at h2
    rw [if_neg hcond] at h3
    exact ⟨r, h1, List.map_eq_nil_iff.mp h2, h3⟩

theorem cross_validate_writes_both_trees_witness :
    ∃ r, crossValidate oneFoldSplit allOutsidePredict zeroMetrics 5
        (some oneFileDS) (some "/user/out") none initialState =
      (preprocess oneFileDS initialState, .ok r) ∧
      r.writes.map Prod.fst = expectedAnnPaths oneFileDS ∧
      r.returned = some (pathJoin oneFileDS.data_directory "predictions") :=
  (cross_validate_writes_both_trees oneFoldSplit allOutsidePredict zeroMetrics
      5 oneFileDS none initialState (by decide) (by decide) (by decide)).1
    "/user/out" (by decide)

/-- C8 (counterexample): the empty string — a string value — passed as
prediction_directory (with a groundtruth_directory string and a training
dataset) is falsy at the writing gate, so no rebinding and no annotation
writing happens: the run completes with no writes and no returned
dataset. -/
theorem empty_prediction_directory_writes_nothing :
    (crossValidate oneFoldSplit allOutsidePredict zeroMetrics 5
        (some oneFileDS) (some "") (some "/user/gt") initialState).2.map
      (fun r => (r.writes, r.returned)) = Except.ok ([], none) := rfl

/-- C8 (amended): for a non-empty prediction_directory string the
user-supplied strings are ignored at annotation-writing time: the written
paths and the returned directory are the fixed
data_directory/predictions and data_directory/groundtruth locations and
are identical whatever prediction/groundtruth strings were supplied. -/
theorem ann_paths_ignore_supplied_strings
    (split : List SeqX → List Labels → List (List Nat × List Nat))
    (predict : List SeqX → List Labels → List SeqX → List Labels)
    (m : MetricFns) (num_folds : Int) (ds : Dataset) (p q : String)
    (gd gd2 : Option String) (st : ModelState) (hnf : ¬ num_folds ≤ 1)
    (hfolds : split (extractedX ds) (extractedY ds) ≠ [])
    (hdocs : ∀ f ∈ ds.files, f.file_name ∈ (extractedX ds).map (fun s => s.doc))
    (hp : p ≠ "") (hq : q ≠ "") :
    ∃ r r2,
      crossValidate split predict m num_folds (some ds) (some p) gd st =
        (preprocess ds st, .ok r) ∧
      crossValidate split predict m num_folds (some ds) (some q) gd2 st =
        (preprocess ds st, .ok r2) ∧
      r.writes.map Prod.fst = expectedAnnPaths ds ∧
      r2.writes.map Prod.fst = r.writes.map Prod.fst ∧
      r.returned = some (pathJoin ds.data_directory "predictions") ∧
      r2.returned = r.returned := by
  have hpt : pyTruthy (some p) = true := by
    simp [pyTruthy, hp]
  have hqt : pyTruthy (some q) = true := by
    simp [pyTruthy, hq]
  obtain ⟨r, h1, h2, h3⟩ := crossValidate_write_paths split predict m
    num_folds ds (some p) gd st hnf hfolds hdocs
  obtain ⟨r2, g1, g2, g3⟩ := crossValidate_write_paths split predict m
    num_folds ds (some q) gd2 st hnf hfolds hdocs
  rw [if_pos hpt] at h2 h3
  rw [if_pos hqt] at g2 g3
  exact ⟨r, r2, h1, g1, h2, by rw [g2, h2], h3, by rw [g3, h3]⟩

theorem ann_paths_ignore_supplied_strings_witness :
    ∃ r r2,
      crossValidate oneFoldSplit allOutsidePredict zeroMetrics 5
          (some oneFileDS) (some "/a") (some "/user/gt") initialState =
        (preprocess oneFileDS initialState, .ok r) ∧
      crossValidate oneFoldSplit allOutsidePredict zeroMetrics 5
          (some oneFileDS) (some "/b") none initialState =
        (preprocess oneFileDS initialState, .ok r2) ∧
      r.writes.map Prod.fst = expectedAnnPaths oneFileDS ∧
      r2.writes.map Prod.fst = r.writes.map Prod.fst ∧
      r.returned = some (pathJoin oneFileDS.data_directory "predictions") ∧
      r2.returned = r.returned :=
  ann_paths_ignore_supplied_strings oneFoldSplit allOutsidePredict zeroMetrics
    5 oneFileDS "/a" "/b" (some "/user/gt") none initialState
    (by decide) (by decide) (by decide) (by decide) (by decide)

theorem span_reconstruction_crosses_documents_witness :
    reconstructSpans ([(⟨"Drug", (0, 5), "docA"⟩ : Token)].map
        (fun u => ⟨u.label, u.span, (fun _ => "z") u.doc⟩)) =
      (reconstructSpans [⟨"Drug", (0, 5), "docA"⟩]).map
        (fun p => ((fun _ => "z") p.1, p.2)) :=
  span_reconstruction_crosses_documents.1 (fun _ => "z")
    [⟨"Drug", (0, 5), "docA"⟩]
